import Mathlib

/-!
Verification of the `last-wins-and-cancels-prevs` invocation coordinator.

The repository contains two near-duplicate historical variants of the
`LastWinsAndCancelsPrevious` class:

* `src/src/index.ts` — the variant whose hooks carry an `isSeriesEnd` flag
  (`onAborted` / `onError` / `onComplete` / `onSeriesStarted`), whose `run`
  returns the raw `_run` promise in the no-deferral case, and whose `abort()`
  neither rejects any promise nor cancels the debounce/throttle wrapper.
  We call this variant V1 below.

* `src/unnamed/part_004` — the variant exposing `TaskAbortedError` /
  `TaskIgnoredError`, per-call futures driven by an internal abort hook, and
  an `abort()` that also calls `debouncedOrThrottledRun.cancel()`.
  We call this variant V2 below.

Both are embedded as explicit state machines.  Tasks are identified by the
order in which they actually start; the opaque task bodies are replaced by a
prescribed `Outcome` (resolve with a value or reject with an error), and the
arbitrary settlement order of the underlying promises is an explicit event
in the traces.
-/

namespace LastWins

/-- Outcome of a caller-supplied task body: its promise either resolves with
a value or rejects with an error (both abstracted to `Nat`). -/
inductive Outcome where
  | ok (v : Nat)
  | err (e : Nat)
deriving DecidableEq, Repr

/-- Settlement state of the promise returned by a V1 `run()` call
(no-deferral path: the promise returned by `_run`).  V1 has no
`TaskAbortedError`; the future settles only with the task's own outcome. -/
inductive FutureVal where
  | pending
  | resolvedVal (v : Nat)
  | rejectedErr (e : Nat)
deriving DecidableEq, Repr

/-- Hook events fired by V1 (`fireSeriesStarted`, `fireAborted`, `fireError`,
`fireComplete`), with the `isSeriesEnd` flag they carry. -/
inductive HookEv where
  | seriesStarted
  | abortedHook (isSeriesEnd : Bool)
  | errorHook (e : Nat) (isSeriesEnd : Bool)
  | completeHook (v : Nat) (isSeriesEnd : Bool)
deriving DecidableEq, Repr

/-- Recognizer for `onAborted` events. -/
def HookEv.isAborted : HookEv → Bool
  | .abortedHook _ => true
  | _ => false

/-- One settlement of a series-result promise: `gen` identifies which
`resultPromise` object (V1 creates a fresh one per series via
`resetResultPromise`), `task` is the task whose handler settled it, `out`
the outcome it was settled with. -/
structure SeriesSettlement where
  gen : Nat
  task : Nat
  out : Outcome
deriving DecidableEq, Repr

/-- Events driving the V1 coordinator with no deferral options:
`run o` is a `run(task)` call whose task will eventually settle with `o`
(reaching `_run` directly), `abort` is an `abort()` call, and `settle i`
is the moment task `i`'s underlying promise settles (triggering the
`.then`/`.catch` handlers installed by `_run`). -/
inductive V1Ev where
  | run (o : Outcome)
  | abort
  | settle (i : Nat)
deriving DecidableEq, Repr

/-- Recognizer for settlement events. -/
def V1Ev.isSettle : V1Ev → Bool
  | .settle _ => true
  | _ => false

/-- Pointwise update of a boolean flag map (models `controller.abort()`
setting `signal.aborted`, and a task handler running once). -/
def setFlag (f : Nat → Bool) (t : Nat) : Nat → Bool :=
  fun u => if u = t then true else f u

/-- Pointwise update of the outcome map. -/
def setOutcome (f : Nat → Outcome) (t : Nat) (o : Outcome) : Nat → Outcome :=
  fun u => if u = t then o else f u

/-- Pointwise update of a run-call future map. -/
def setFuture (f : Nat → FutureVal) (t : Nat) (v : FutureVal) : Nat → FutureVal :=
  fun u => if u = t then v else f u

@[simp] theorem setFlag_same (f : Nat → Bool) (t : Nat) : setFlag f t t = true := by
  simp [setFlag]

@[simp] theorem setFlag_other (f : Nat → Bool) (t u : Nat) (h : u ≠ t) :
    setFlag f t u = f u := by
  simp [setFlag, h]

@[simp] theorem setOutcome_same (f : Nat → Outcome) (t : Nat) (o : Outcome) :
    setOutcome f t o t = o := by
  simp [setOutcome]

@[simp] theorem setOutcome_other (f : Nat → Outcome) (t : Nat) (o : Outcome) (u : Nat)
    (h : u ≠ t) : setOutcome f t o u = f u := by
  simp [setOutcome, h]

@[simp] theorem setFuture_same (f : Nat → FutureVal) (t : Nat) (v : FutureVal) :
    setFuture f t v t = v := by
  simp [setFuture]

@[simp] theorem setFuture_other (f : Nat → FutureVal) (t : Nat) (v : FutureVal) (u : Nat)
    (h : u ≠ t) : setFuture f t v u = f u := by
  simp [setFuture, h]

/-- State of the V1 coordinator (`src/src/index.ts`), no deferral configured.

Field correspondence:
* `nextTaskId` — number of tasks started so far; task ids are `0, 1, …`.
* `controller` — `this.controller`: id of the task owning the current
  `AbortController` (`none` only before the first `_run`; V1 never clears it).
* `signalAborted i` — `signal.aborted` of task `i`'s controller.
* `taskOutcome i` — the prescribed settlement of task `i`'s underlying promise.
* `taskSettled i` — whether task `i`'s `.then`/`.catch` handler has run.
* `runFuture i` — the promise `_run` returned for task `i`.
* `genCounter` / `resultPromiseGen` — identity of `this.resultPromise`:
  `resetResultPromise` allocates generation `genCounter`;
  `clearResultPromise` sets `resultPromiseGen := none`
  (so `resultPromiseGen.isSome` iff the `result` getter returns a promise).
* `seriesSettlements` — every resolution/rejection performed on some
  series-result promise (`resultPromiseResolve?.` / `resultPromiseReject?.`).
* `hookEvents` — the hook events fired, in order. -/
structure V1State where
  nextTaskId : Nat
  controller : Option Nat
  signalAborted : Nat → Bool
  taskOutcome : Nat → Outcome
  taskSettled : Nat → Bool
  runFuture : Nat → FutureVal
  genCounter : Nat
  resultPromiseGen : Option Nat
  seriesSettlements : List SeriesSettlement
  hookEvents : List HookEv

/-- Initial V1 state: fresh coordinator, nothing started. -/
def initV1 : V1State where
  nextTaskId := 0
  controller := none
  signalAborted := fun _ => false
  taskOutcome := fun _ => Outcome.ok 0
  taskSettled := fun _ => false
  runFuture := fun _ => FutureVal.pending
  genCounter := 0
  resultPromiseGen := none
  seriesSettlements := []
  hookEvents := []

/-- One step of the V1 coordinator.

`run o` follows `run`/`_run` (src/src/index.ts lines 221–276, no deferral):
if there is no `resultPromise`, a fresh one is created; `fireSeriesStarted`;
if a controller exists it is aborted and `fireAborted(…, false)` fires
(note: unconditionally, even when that occupant already settled or was
already aborted); a fresh controller is installed for the new task.

`abort` follows `abort()` (lines 118–126): a no-op unless a controller
exists whose signal is not yet aborted; otherwise it aborts the signal,
fires `fireAborted(…, true)` and clears the result promise — without
settling it and without touching the controller field.

`settle i` runs the `.then`/`.catch` handler installed by `_run` on task
`i`'s promise (lines 254–275).  A promise settles at most once and only
tasks that actually started can settle, hence the guard. -/
def stepV1 (s : V1State) : V1Ev → V1State
  | .run o =>
    let s1 := match s.resultPromiseGen with
      | none => { s with resultPromiseGen := some s.genCounter,
                         genCounter := s.genCounter + 1 }
      | some _ => s
    let s2 := { s1 with hookEvents := s1.hookEvents ++ [HookEv.seriesStarted] }
    let s3 := match s2.controller with
      | some t => { s2 with signalAborted := setFlag s2.signalAborted t,
                            hookEvents := s2.hookEvents ++ [HookEv.abortedHook false] }
      | none => s2
    { s3 with controller := some s3.nextTaskId,
              taskOutcome := setOutcome s3.taskOutcome s3.nextTaskId o,
              nextTaskId := s3.nextTaskId + 1 }
  | .abort =>
    match s.controller with
    | some t =>
      if s.signalAborted t then s
      else { s with signalAborted := setFlag s.signalAborted t,
                    hookEvents := s.hookEvents ++ [HookEv.abortedHook true],
                    resultPromiseGen := none }
    | none => s
  | .settle i =>
    if i < s.nextTaskId ∧ s.taskSettled i = false then
      let s0 := { s with taskSettled := setFlag s.taskSettled i }
      match s0.taskOutcome i with
      | .ok v =>
        if s0.signalAborted i then
          { s0 with runFuture := setFuture s0.runFuture i (FutureVal.resolvedVal v) }
        else
          { s0 with runFuture := setFuture s0.runFuture i (FutureVal.resolvedVal v),
                    seriesSettlements := s0.seriesSettlements ++
                      (match s0.resultPromiseGen with
                       | some g => [⟨g, i, Outcome.ok v⟩]
                       | none => []),
                    hookEvents := s0.hookEvents ++ [HookEv.completeHook v true],
                    resultPromiseGen := none }
      | .err e =>
        if s0.signalAborted i then
          { s0 with runFuture := setFuture s0.runFuture i (FutureVal.rejectedErr e),
                    hookEvents := s0.hookEvents ++ [HookEv.errorHook e false] }
        else
          { s0 with runFuture := setFuture s0.runFuture i (FutureVal.rejectedErr e),
                    seriesSettlements := s0.seriesSettlements ++
                      (match s0.resultPromiseGen with
                       | some g => [⟨g, i, Outcome.err e⟩]
                       | none => []),
                    hookEvents := s0.hookEvents ++ [HookEv.errorHook e true],
                    resultPromiseGen := none }
    else s

/-- Run a V1 trace from the initial state. -/
def processV1 (es : List V1Ev) : V1State :=
  es.foldl stepV1 initV1

/-- Settlement state of the promise a V1 deferred-mode `run()` call returns:
it can resolve with `undefined` (the microtask check), resolve with a value,
or reject with the task's error. -/
inductive RunSettle where
  | undef
  | val (v : Nat)
  | errv (e : Nat)
deriving DecidableEq, Repr

/-- First settlement wins: a JS promise settles at most once, later
`resolve`/`reject` calls are no-ops. -/
def settleOnce (cur : Option RunSettle) (v : RunSettle) : Option RunSettle :=
  match cur with
  | some w => some w
  | none => some v

/-- State of a V1 coordinator constructed with `{ debounceMs, edge:
"trailing" }` (src/src/index.ts lines 173–186 and 221–236).  The inner
engine is the same `_run` machine (`core`); on top of it:

* `timerTask` — the pending trailing invocation held by the wrapper:
  the call id and task outcome of the most recent `run()` call.  The
  trailing-edge deferral (lodash.debounce) is the external Deferral Policy;
  modelled from the spec contract: the trailing edge "fires with the
  arguments of the last call once the window elapses", superseded pending
  invocations are replaced, and nothing is invoked on the leading edge.
* `callMarker k` — the per-call `called.called` flag `run()` allocates.
* `defRunFuture k` — the promise `run()` returned for call `k`.
* `linkedCall i` — which call's `resolve`/`reject` were handed to the
  `_run(task).then(resolve, reject)` chain that started engine task `i`.
* `nextCall` — number of `run()` calls so far (call ids are `0, 1, …`). -/
structure V1DState where
  core : V1State
  timerTask : Option (Nat × Outcome)
  callMarker : Nat → Bool
  defRunFuture : Nat → Option RunSettle
  linkedCall : Nat → Option Nat
  nextCall : Nat

/-- Events for the V1 deferred-mode machine:

* `call o` — a `run(task)` call (task will settle with `o`); with trailing
  edge only, the wrapper never invokes synchronously and stores this call
  as the pending one.
* `microtask k` — the `Promise.resolve().then(() => { if (!called.called)
  resolve(undefined) })` check of call `k` (runs one microtask after the
  call, hence always before a trailing timer can fire).
* `elapse` — the debounce window elapses; the trailing edge invokes the
  stored call: its marker is set and `_run` starts its task.
* `abort` / `settle i` — as in the core machine.  Note `abort()` in V1
  does not touch the debounce wrapper at all. -/
inductive V1DEv where
  | call (o : Outcome)
  | microtask (k : Nat)
  | elapse
  | abort
  | settle (i : Nat)
deriving DecidableEq, Repr

/-- One step of the V1 deferred-mode (trailing debounce) machine. -/
def stepV1D (s : V1DState) : V1DEv → V1DState
  | .call o =>
    { s with timerTask := some (s.nextCall, o), nextCall := s.nextCall + 1 }
  | .microtask k =>
    if k < s.nextCall ∧ s.callMarker k = false then
      { s with defRunFuture := fun u =>
          if u = k then settleOnce (s.defRunFuture k) RunSettle.undef
          else s.defRunFuture u }
    else s
  | .elapse =>
    match s.timerTask with
    | some (k, o) =>
      { s with timerTask := none,
               callMarker := setFlag s.callMarker k,
               linkedCall := fun u =>
                 if u = s.core.nextTaskId then some k else s.linkedCall u,
               core := stepV1 s.core (V1Ev.run o) }
    | none => s
  | .abort => { s with core := stepV1 s.core V1Ev.abort }
  | .settle i =>
    if i < s.core.nextTaskId ∧ s.core.taskSettled i = false then
      let c := stepV1 s.core (V1Ev.settle i)
      { s with core := c,
               defRunFuture := fun u =>
                 if s.linkedCall i = some u then
                   settleOnce (s.defRunFuture u)
                     (match c.runFuture i with
                      | FutureVal.resolvedVal v => RunSettle.val v
                      | FutureVal.rejectedErr e => RunSettle.errv e
                      | FutureVal.pending => RunSettle.undef)
                 else s.defRunFuture u }
    else s

/-- Initial state of the V1 deferred-mode machine. -/
def initV1D : V1DState where
  core := initV1
  timerTask := none
  callMarker := fun _ => false
  defRunFuture := fun _ => none
  linkedCall := fun _ => none
  nextCall := 0

/-- Run a V1 deferred-mode trace from the initial state. -/
def processV1D (es : List V1DEv) : V1DState :=
  es.foldl stepV1D initV1D

/-- V1 hook dispatch (`fireAborted` / `fireError` / `fireComplete` /
`fireSeriesStarted`, src/src/index.ts lines 132–163): a plain
`for (const cb of hooks) cb(args)` loop with no try/catch.  A subscriber is
abstracted to whether invoking it throws (`true` = throws).  Returns how
many subscribers were invoked and whether an exception escaped the loop.
All four fire functions have this exact shape, so the escalation behaviour
is uniform across hook kinds. -/
def dispatchHooks : List Bool → Nat × Bool
  | [] => (0, false)
  | throws :: rest =>
    if throws then (1, true)
    else
      let r := dispatchHooks rest
      (r.1 + 1, r.2)

/-- Observable bookkeeping of `_run`'s resolve handler for an authoritative
completion. -/
structure SettlePathResult where
  seriesResolved : Bool
  handlersInvoked : Nat
  promiseCleared : Bool
  hookErrorEscaped : Bool
deriving DecidableEq, Repr

/-- Bookkeeping of `_run`'s resolve handler for an authoritative (un-aborted)
completion, src/src/index.ts lines 255–263: `resultPromiseResolve?.(result)`
runs first, then `fireComplete(result, signal, true)`, then
`clearResultPromise()`.  If the dispatch loop throws, the statements after
it never run and the exception escapes into the promise chain `run()`
returned. -/
def v1CompletePath (onCompleteHooks : List Bool) : SettlePathResult :=
  let d := dispatchHooks onCompleteHooks
  { seriesResolved := true
    handlersInvoked := d.1
    promiseCleared := !d.2
    hookErrorEscaped := d.2 }

/-- Settlement state of the promise a V2 (`src/unnamed/part_004`) `run()`
call returns in deferral mode. -/
inductive V2Fut where
  | pending
  | resolvedVal (v : Nat)
  | taskIgnoredRejection
  | taskAbortedRejection
  | rejectedErr (e : Nat)
deriving DecidableEq, Repr

/-- State of a V2 coordinator (`src/unnamed/part_004`) configured with
trailing-edge debounce.

* `nextCall` — number of `run(...args)` calls so far (call ids `0, 1, …`);
  `callArgs` / `callOutcome` record each call's arguments (abstracted to a
  `Nat`) and its task's eventual settlement.
* `callFuture k` — the `resultPromise` that call `k`'s `run()` returned
  (built by `resolvablePromiseFromOutside`); settles at most once.
* `pendingCall` — the deferred invocation held by the trailing-debounce
  wrapper (the most recent call), as in the V1 deferred machine; cleared
  by `debouncedOrThrottledRun.cancel()`.
* `raceOpen` — calls whose `Promise.race([nextTaskStartedPromise,
  thisTaskStartedPromise])` is still undecided (they were deferred and no
  task has started since).
* `leadingTaskController` — `this.leadingTaskController`: the call id of
  the task occupying the slot; `taskAborted k` its signal's aborted flag;
  `taskSettled k` whether its body settled; `startedTasks` every call id
  whose task actually started, in order.
* `currentSeriesOpen` — whether `currentSeriesPromise` is set
  (`currentSeriesResult` returns a promise iff this is `true`). -/
structure V2State where
  nextCall : Nat
  callArgs : Nat → Nat
  callOutcome : Nat → Outcome
  callFuture : Nat → V2Fut
  pendingCall : Option Nat
  raceOpen : List Nat
  leadingTaskController : Option Nat
  taskAborted : Nat → Bool
  taskSettled : Nat → Bool
  startedTasks : List Nat
  currentSeriesOpen : Bool

/-- Events for the V2 machine: a `run(...args)` call, the debounce window
elapsing (trailing edge), an `abort()` call, and the settlement of call
`k`'s task body. -/
inductive V2Ev where
  | call (a : Nat) (o : Outcome)
  | elapse
  | abort
  | settle (k : Nat)
deriving DecidableEq, Repr

/-- Settle call `k`'s returned promise (first settlement wins). -/
def settleV2Fut (f : Nat → V2Fut) (k : Nat) (v : V2Fut) : Nat → V2Fut :=
  fun u => if u = k ∧ f u = V2Fut.pending then v else f u

/-- One step of the V2 machine (trailing-edge debounce).

`call a o` — `run` (part_004 lines 513–604): subscribes the internal-abort
hook, invokes the debounced wrapper (trailing: nothing runs synchronously,
the wrapper stores this call as the pending one), observes `wasDeferred`,
fires `onTaskDeferred`, and — edge ≠ leading — races
`nextTaskStartedPromise` against its own start (`raceOpen`).

`elapse` — the trailing edge invokes `_run(args, onTaskStarted,
onTaskCompleted, onTaskFailed)` of the pending call `k` (lines 611–673):
`onTaskStarted` resolves `k`'s own-start promise first, a previous occupant
is aborted (`fireTaskAborted`), the new controller is installed,
`fireTaskStarted` then decides every other open race as "ignored": those
calls' futures reject with `TaskIgnoredError`; a series is started if none
is open.

`abort` — `abort()` (lines 298–321): aborts the occupant's signal, fires
the internal abort hooks — rejecting every still-pending call future with
`TaskAbortedError` — clears the series (controller and series promise),
and cancels the debounced wrapper, discarding the pending invocation.

`settle k` — call `k`'s task body settles: if its signal is not aborted the
outcome is authoritative (`onTaskCompleted`/series settle + `clearSeries`),
otherwise only the call's own future settles (`TaskAbortedError` after a
late resolution, the task's own error after a late rejection). -/
def stepV2 (s : V2State) : V2Ev → V2State
  | .call a o =>
    { s with nextCall := s.nextCall + 1,
             callArgs := fun u => if u = s.nextCall then a else s.callArgs u,
             callOutcome := fun u => if u = s.nextCall then o else s.callOutcome u,
             pendingCall := some s.nextCall,
             raceOpen := s.raceOpen ++ [s.nextCall] }
  | .elapse =>
    match s.pendingCall with
    | none => s
    | some k =>
      let s1 := match s.leadingTaskController with
        | some j => { s with taskAborted := setFlag s.taskAborted j }
        | none => s
      { s1 with pendingCall := none,
                leadingTaskController := some k,
                startedTasks := s1.startedTasks ++ [k],
                callFuture := fun u =>
                  if u ∈ s1.raceOpen ∧ u ≠ k ∧ s1.callFuture u = V2Fut.pending
                  then V2Fut.taskIgnoredRejection else s1.callFuture u,
                raceOpen := [],
                currentSeriesOpen := true }
  | .abort =>
    let s1 := match s.leadingTaskController with
      | some j => { s with taskAborted := setFlag s.taskAborted j }
      | none => s
    { s1 with leadingTaskController := none,
              currentSeriesOpen := false,
              pendingCall := none,
              callFuture := fun u =>
                if u < s1.nextCall ∧ s1.callFuture u = V2Fut.pending
                then V2Fut.taskAbortedRejection else s1.callFuture u }
  | .settle k =>
    if k ∈ s.startedTasks ∧ s.taskSettled k = false then
      let s0 := { s with taskSettled := setFlag s.taskSettled k }
      match s0.callOutcome k, s0.taskAborted k with
      | .ok v, false =>
        { s0 with callFuture := settleV2Fut s0.callFuture k (V2Fut.resolvedVal v),
                  currentSeriesOpen := false,
                  leadingTaskController := none }
      | .ok _, true =>
        { s0 with callFuture := settleV2Fut s0.callFuture k V2Fut.taskAbortedRejection }
      | .err e, false =>
        { s0 with callFuture := settleV2Fut s0.callFuture k (V2Fut.rejectedErr e),
                  currentSeriesOpen := false,
                  leadingTaskController := none }
      | .err e, true =>
        { s0 with callFuture := settleV2Fut s0.callFuture k (V2Fut.rejectedErr e) }
    else s

/-- Initial V2 state. -/
def initV2 : V2State where
  nextCall := 0
  callArgs := fun _ => 0
  callOutcome := fun _ => Outcome.ok 0
  callFuture := fun _ => V2Fut.pending
  pendingCall := none
  raceOpen := []
  leadingTaskController := none
  taskAborted := fun _ => false
  taskSettled := fun _ => false
  startedTasks := []
  currentSeriesOpen := false

/-- Run a burst of V2 `run()` calls. -/
def runBurstV2 (s : V2State) (burst : List (Nat × Outcome)) : V2State :=
  burst.foldl (fun st p => stepV2 st (V2Ev.call p.1 p.2)) s

example :
    (processV1 [V1Ev.run (Outcome.ok 1), V1Ev.run (Outcome.ok 2),
      V1Ev.settle 0, V1Ev.settle 1]).seriesSettlements
      = [⟨0, 1, Outcome.ok 2⟩] := by
  decide

example :
    (processV1 [V1Ev.run (Outcome.ok 1), V1Ev.settle 0, V1Ev.run (Outcome.ok 2),
      V1Ev.settle 1]).seriesSettlements
      = [⟨0, 0, Outcome.ok 1⟩, ⟨1, 1, Outcome.ok 2⟩] := by
  decide

example :
    (stepV2 (runBurstV2 initV2 [(10, Outcome.ok 1), (20, Outcome.ok 2), (30, Outcome.ok 3)])
      V2Ev.elapse).startedTasks = [2] := by
  decide

example :
    (stepV2 (runBurstV2 initV2 [(10, Outcome.ok 1), (20, Outcome.ok 2), (30, Outcome.ok 3)])
      V2Ev.elapse).callFuture 0 = V2Fut.taskIgnoredRejection := by
  decide

/-- C2: a task whose cancellation signal was triggered before its promise
settled never affects the series when it does settle: its settlement handler
leaves the recorded series settlements, the live series promise, the
generation counter and the active slot untouched — so its rejection error is
never surfaced on the series future, and a series that has already concluded
is neither resolved, rejected, reset nor re-opened by the late settlement. -/
theorem c2_cancelled_settlement_frame (s : V1State) (i : Nat)
    (h : s.signalAborted i = true) :
    (stepV1 s (V1Ev.settle i)).seriesSettlements = s.seriesSettlements ∧
    (stepV1 s (V1Ev.settle i)).resultPromiseGen = s.resultPromiseGen ∧
    (stepV1 s (V1Ev.settle i)).genCounter = s.genCounter ∧
    (stepV1 s (V1Ev.settle i)).controller = s.controller := by
  by_cases hg : i < s.nextTaskId ∧ s.taskSettled i = false
  · cases ho : s.taskOutcome i with
    | ok v => simp [stepV1, hg, ho, h]
    | err e => simp [stepV1, hg, ho, h]
  · simp [stepV1, hg]

/-- C2 witness: the displaced first task of the trace
`run (err 3); run (ok 1)` settles late without touching the series. -/
theorem c2_witness :
    (processV1 [V1Ev.run (Outcome.err 3), V1Ev.run (Outcome.ok 1)]).signalAborted 0 = true ∧
    ((stepV1 (processV1 [V1Ev.run (Outcome.err 3), V1Ev.run (Outcome.ok 1)])
        (V1Ev.settle 0)).seriesSettlements
      = (processV1 [V1Ev.run (Outcome.err 3), V1Ev.run (Outcome.ok 1)]).seriesSettlements ∧
     (stepV1 (processV1 [V1Ev.run (Outcome.err 3), V1Ev.run (Outcome.ok 1)])
        (V1Ev.settle 0)).resultPromiseGen
      = (processV1 [V1Ev.run (Outcome.err 3), V1Ev.run (Outcome.ok 1)]).resultPromiseGen ∧
     (stepV1 (processV1 [V1Ev.run (Outcome.err 3), V1Ev.run (Outcome.ok 1)])
        (V1Ev.settle 0)).genCounter
      = (processV1 [V1Ev.run (Outcome.err 3), V1Ev.run (Outcome.ok 1)]).genCounter ∧
     (stepV1 (processV1 [V1Ev.run (Outcome.err 3), V1Ev.run (Outcome.ok 1)])
        (V1Ev.settle 0)).controller
      = (processV1 [V1Ev.run (Outcome.err 3), V1Ev.run (Outcome.ok 1)]).controller) :=
  ⟨by decide,
   c2_cancelled_settlement_frame
     (processV1 [V1Ev.run (Outcome.err 3), V1Ev.run (Outcome.ok 1)]) 0 (by decide)⟩

/-- C8 counterexample: after `run` of a task that completed authoritatively,
the coordinator is idle — the series concluded (`result` is `undefined`) and
the occupant settled — and nothing is deferred; yet the stale controller is
still in the slot with an un-aborted signal, so `abort()` fires a
task-aborted hook event (`isSeriesEnd = true`) and mutates the stale
occupant's signal.  It is not the claimed zero-hook no-op. -/
theorem c8_counterexample :
    (processV1 [V1Ev.run (Outcome.ok 1), V1Ev.settle 0]).resultPromiseGen = none ∧
    (processV1 [V1Ev.run (Outcome.ok 1), V1Ev.settle 0]).taskSettled 0 = true ∧
    (processV1 [V1Ev.run (Outcome.ok 1), V1Ev.settle 0]).signalAborted 0 = false ∧
    (processV1 [V1Ev.run (Outcome.ok 1), V1Ev.settle 0, V1Ev.abort]).hookEvents
      = [HookEv.seriesStarted, HookEv.completeHook 1 true, HookEv.abortedHook true] ∧
    (processV1 [V1Ev.run (Outcome.ok 1), V1Ev.settle 0, V1Ev.abort]).signalAborted 0
      = true := by
  decide

/-- C8 (amended): `abort()` fires zero hook events and leaves every field of
the coordinator's state unchanged precisely in the no-controller /
already-aborted cases: when no `run()` ever started a task (in particular on
a fresh coordinator, where no task is active and nothing is deferred) or
when the occupant's signal is already aborted. -/
theorem c8_abort_noop_when_no_controller (s : V1State)
    (h : s.controller = none ∨ ∃ t, s.controller = some t ∧ s.signalAborted t = true) :
    stepV1 s V1Ev.abort = s := by
  rcases h with h | ⟨t, hc, ha⟩
  · simp [stepV1, h]
  · simp [stepV1, hc, ha]

/-- C8 witness: a fresh coordinator's `abort()` is a no-op. -/
theorem c8_witness :
    (initV1.controller = none ∨
      ∃ t, initV1.controller = some t ∧ initV1.signalAborted t = true) ∧
    stepV1 initV1 V1Ev.abort = initV1 :=
  ⟨Or.inl rfl, c8_abort_noop_when_no_controller initV1 (Or.inl rfl)⟩

/-- C9: when a displaced (cancelled) task later settles, the promise its own
`run()` call returned settles with that task's own outcome — resolving with
its result or rejecting with its own error (V1 has no `TaskAbortedError` at
all) — and on a rejection the `onError` hooks fire exactly once for it with
`isSeriesEnd = false`, while the series settlements and the series promise
are left untouched; a second settlement of the same task is impossible. -/
theorem c9_displaced_task_own_outcome (s : V1State) (i : Nat)
    (hab : s.signalAborted i = true) (hst : s.taskSettled i = false)
    (hlt : i < s.nextTaskId) :
    (stepV1 s (V1Ev.settle i)).runFuture i
      = (match s.taskOutcome i with
         | Outcome.ok v => FutureVal.resolvedVal v
         | Outcome.err e => FutureVal.rejectedErr e) ∧
    (stepV1 s (V1Ev.settle i)).hookEvents
      = (match s.taskOutcome i with
         | Outcome.ok _ => s.hookEvents
         | Outcome.err e => s.hookEvents ++ [HookEv.errorHook e false]) ∧
    (stepV1 s (V1Ev.settle i)).seriesSettlements = s.seriesSettlements ∧
    (stepV1 s (V1Ev.settle i)).resultPromiseGen = s.resultPromiseGen ∧
    stepV1 (stepV1 s (V1Ev.settle i)) (V1Ev.settle i) = stepV1 s (V1Ev.settle i) := by
  have hg : i < s.nextTaskId ∧ s.taskSettled i = false := ⟨hlt, hst⟩
  cases ho : s.taskOutcome i with
  | ok v => simp [stepV1, hg, ho, hab, hlt, hst]
  | err e => simp [stepV1, hg, ho, hab, hlt, hst]

/-- C9 witness: the displaced first task of `run (err 7); run (ok 2)`
settles late with its own error. -/
theorem c9_witness :
    (processV1 [V1Ev.run (Outcome.err 7), V1Ev.run (Outcome.ok 2)]).signalAborted 0 = true ∧
    (processV1 [V1Ev.run (Outcome.err 7), V1Ev.run (Outcome.ok 2)]).taskSettled 0 = false ∧
    0 < (processV1 [V1Ev.run (Outcome.err 7), V1Ev.run (Outcome.ok 2)]).nextTaskId ∧
    (stepV1 (processV1 [V1Ev.run (Outcome.err 7), V1Ev.run (Outcome.ok 2)])
        (V1Ev.settle 0)).runFuture 0
      = (match (processV1 [V1Ev.run (Outcome.err 7), V1Ev.run (Outcome.ok 2)]).taskOutcome 0 with
         | Outcome.ok v => FutureVal.resolvedVal v
         | Outcome.err e => FutureVal.rejectedErr e) :=
  ⟨by decide, by decide, by decide,
   (c9_displaced_task_own_outcome
      (processV1 [V1Ev.run (Outcome.err 7), V1Ev.run (Outcome.ok 2)]) 0
      (by decide) (by decide) (by decide)).1⟩

/-- C3 counterexample: `abort()` is called while task 0 is active; exactly
one task-aborted hook with `isSeriesEnd = true` fires (that part of the
claim holds), but the promise returned by the `run()` call that started
task 0 is never rejected with `TaskAbortedError` — V1 defines no such error
and the abort leaves the call's promise pending; when the task later
settles, that promise resolves with the task's own result (`5`). -/
theorem c3_counterexample :
    (processV1 [V1Ev.run (Outcome.ok 5)]).controller = some 0 ∧
    (processV1 [V1Ev.run (Outcome.ok 5)]).signalAborted 0 = false ∧
    (processV1 [V1Ev.run (Outcome.ok 5), V1Ev.abort]).hookEvents
      = [HookEv.seriesStarted, HookEv.abortedHook true] ∧
    (processV1 [V1Ev.run (Outcome.ok 5), V1Ev.abort]).runFuture 0 = FutureVal.pending ∧
    (processV1 [V1Ev.run (Outcome.ok 5), V1Ev.abort, V1Ev.settle 0]).runFuture 0
      = FutureVal.resolvedVal 5 := by
  decide

/-- C3 (amended): if `abort()` is called while a task is active, exactly one
task-aborted hook event fires, carrying `isSeriesEnd = true`; the promise
returned by the `run()` call that started that task is not settled by the
abort — it settles only when the task itself settles, and then with the
task's own outcome (its result or its own error), never with a
`TaskAbortedError`. -/
theorem c3_abort_one_hook_future_settles_own (s : V1State) (t : Nat)
    (hc : s.controller = some t) (hab : s.signalAborted t = false)
    (hst : s.taskSettled t = false) (hlt : t < s.nextTaskId) :
    (stepV1 s V1Ev.abort).hookEvents = s.hookEvents ++ [HookEv.abortedHook true] ∧
    (∀ u, (stepV1 s V1Ev.abort).runFuture u = s.runFuture u) ∧
    (stepV1 (stepV1 s V1Ev.abort) (V1Ev.settle t)).runFuture t
      = (match s.taskOutcome t with
         | Outcome.ok v => FutureVal.resolvedVal v
         | Outcome.err e => FutureVal.rejectedErr e) := by
  have h1 : stepV1 s V1Ev.abort
      = { s with signalAborted := setFlag s.signalAborted t,
                 hookEvents := s.hookEvents ++ [HookEv.abortedHook true],
                 resultPromiseGen := none } := by
    simp [stepV1, hc, hab]
  refine ⟨by rw [h1], by rw [h1]; intro u; rfl, ?_⟩
  rw [h1]
  have hg : t < s.nextTaskId ∧ s.taskSettled t = false := ⟨hlt, hst⟩
  cases ho : s.taskOutcome t with
  | ok v => simp [stepV1, hg, ho]
  | err e => simp [stepV1, hg, ho]

/-- C3 witness: the concrete abort-while-active scenario of the
counterexample, through the amended theorem. -/
theorem c3_witness :
    (processV1 [V1Ev.run (Outcome.err 9)]).controller = some 0 ∧
    (processV1 [V1Ev.run (Outcome.err 9)]).signalAborted 0 = false ∧
    (processV1 [V1Ev.run (Outcome.err 9)]).taskSettled 0 = false ∧
    0 < (processV1 [V1Ev.run (Outcome.err 9)]).nextTaskId ∧
    (stepV1 (processV1 [V1Ev.run (Outcome.err 9)]) V1Ev.abort).hookEvents
      = (processV1 [V1Ev.run (Outcome.err 9)]).hookEvents ++ [HookEv.abortedHook true] :=
  ⟨by decide, by decide, by decide, by decide,
   (c3_abort_one_hook_future_settles_own (processV1 [V1Ev.run (Outcome.err 9)]) 0
      (by decide) (by decide) (by decide) (by decide)).1⟩

/-- C6 counterexample: in the trace `run; abort(); run`, exactly one
occupant (task 0) is ever displaced or explicitly aborted — task 1 is never
aborted — yet two task-aborted hook events fire: `abort()` fires one with
`isSeriesEnd = true`, and because `abort()` leaves the aborted occupant in
the slot, the subsequent `run()` fires a second one (`isSeriesEnd = false`)
for the same already-aborted occupant. -/
theorem c6_counterexample :
    ((processV1 [V1Ev.run (Outcome.ok 1), V1Ev.abort,
        V1Ev.run (Outcome.ok 2)]).hookEvents.filter HookEv.isAborted).length = 2 ∧
    (processV1 [V1Ev.run (Outcome.ok 1), V1Ev.abort,
        V1Ev.run (Outcome.ok 2)]).signalAborted 0 = true ∧
    (processV1 [V1Ev.run (Outcome.ok 1), V1Ev.abort,
        V1Ev.run (Outcome.ok 2)]).signalAborted 1 = false ∧
    (processV1 [V1Ev.run (Outcome.ok 1), V1Ev.abort,
        V1Ev.run (Outcome.ok 2)]).nextTaskId = 2 := by
  decide

/-- C6 (amended): `abort()` on an already-aborted occupant is a no-op, but
the occupant stays in the slot, and every `run()` that finds an occupant in
the slot — even one already aborted (or already settled) — fires a further
task-aborted hook event with `isSeriesEnd = false`; in particular a `run()`
issued after an explicit `abort()` fires one additional task-aborted event
for the already-aborted occupant. -/
theorem c6_run_refires_aborted_for_stale_occupant (s : V1State) (t : Nat) (o : Outcome)
    (hc : s.controller = some t) (hab : s.signalAborted t = true) :
    stepV1 s V1Ev.abort = s ∧
    (stepV1 s (V1Ev.run o)).hookEvents
      = s.hookEvents ++ [HookEv.seriesStarted, HookEv.abortedHook false] := by
  constructor
  · simp [stepV1, hc, hab]
  · cases hres : s.resultPromiseGen with
    | none => simp [stepV1, hres, hc]
    | some g => simp [stepV1, hres, hc]

/-- C6 witness: the state right after `run; abort()` satisfies the amended
theorem; the next `run` fires the additional aborted event. -/
theorem c6_witness :
    (processV1 [V1Ev.run (Outcome.ok 1), V1Ev.abort]).controller = some 0 ∧
    (processV1 [V1Ev.run (Outcome.ok 1), V1Ev.abort]).signalAborted 0 = true ∧
    (stepV1 (processV1 [V1Ev.run (Outcome.ok 1), V1Ev.abort])
        (V1Ev.run (Outcome.ok 2))).hookEvents
      = (processV1 [V1Ev.run (Outcome.ok 1), V1Ev.abort]).hookEvents
        ++ [HookEv.seriesStarted, HookEv.abortedHook false] :=
  ⟨by decide, by decide,
   (c6_run_refires_aborted_for_stale_occupant
      (processV1 [V1Ev.run (Outcome.ok 1), V1Ev.abort]) 0 (Outcome.ok 2)
      (by decide) (by decide)).2⟩

/-- C7: evaluation at the failing input — two subscribers to one hook kind,
the first of which throws.  Only one subscriber is invoked (the remaining
handler never runs), and in the authoritative-completion path the series
promise was already resolved but `clearResultPromise()` is skipped and the
hook's exception escapes into the promise chain that `run()` returned.
This contradicts the claim (and the repository's own test "does not break
if hook throws"): the code has no try/catch around any hook loop. -/
theorem c7_hook_throw_breaks_dispatch :
    dispatchHooks [true, false] = (1, true) ∧
    v1CompletePath [true, false]
      = { seriesResolved := true, handlersInvoked := 1,
          promiseCleared := false, hookErrorEscaped := true } := by
  decide

theorem stepV1D_defRunFuture_stable (s : V1DState) (e : V1DEv) (k : Nat) (w : RunSettle)
    (h : s.defRunFuture k = some w) : (stepV1D s e).defRunFuture k = some w := by
  cases e with
  | call o => simpa [stepV1D] using h
  | microtask j =>
    by_cases hg : j < s.nextCall ∧ s.callMarker j = false
    · by_cases hk : k = j
      · subst hk; simp [stepV1D, hg, h, settleOnce]
      · simp [stepV1D, hg, hk, h]
    · simp [stepV1D, hg, h]
  | elapse =>
    cases ht : s.timerTask with
    | none => simp [stepV1D, ht, h]
    | some p => cases p with
      | mk a b => simp [stepV1D, ht, h]
  | abort => simpa [stepV1D] using h
  | settle i =>
    by_cases hg : i < s.core.nextTaskId ∧ s.core.taskSettled i = false
    · by_cases hk : s.linkedCall i = some k
      · simp [stepV1D, hg, hk, h, settleOnce]
      · simp [stepV1D, hg, hk, h]
    · simp [stepV1D, hg, h]

theorem foldl_defRunFuture_stable (k : Nat) (w : RunSettle) :
    ∀ (es : List V1DEv) (s : V1DState), s.defRunFuture k = some w →
      (es.foldl stepV1D s).defRunFuture k = some w := by
  intro es
  induction es with
  | nil => intro s h; simpa using h
  | cons e rest ih =>
    intro s h
    simpa using ih _ (stepV1D_defRunFuture_stable s e k w h)

/-- C10: in deferral mode, the promise `run(task)` returns resolves with
`undefined` whenever the wrapper has not invoked the task by the call's
microtask check (`called.called` still `false`), and — promises settling at
most once — no later event (the trailing edge executing the task, its
settlement, an abort) ever changes that already-settled future. -/
theorem c10_deferred_run_resolves_undefined (s : V1DState) (k : Nat) (es : List V1DEv)
    (hlt : k < s.nextCall) (hm : s.callMarker k = false)
    (hp : s.defRunFuture k = none) :
    (es.foldl stepV1D (stepV1D s (V1DEv.microtask k))).defRunFuture k
      = some RunSettle.undef := by
  have hg : k < s.nextCall ∧ s.callMarker k = false := ⟨hlt, hm⟩
  have h1 : (stepV1D s (V1DEv.microtask k)).defRunFuture k = some RunSettle.undef := by
    simp [stepV1D, hg, hp, settleOnce]
  exact foldl_defRunFuture_stable k RunSettle.undef es _ h1

/-- C10 witness: a single deferred call, with the window then elapsing and
the task settling afterwards — the call's future stays `undefined`. -/
theorem c10_witness :
    0 < (processV1D [V1DEv.call (Outcome.ok 4)]).nextCall ∧
    (processV1D [V1DEv.call (Outcome.ok 4)]).callMarker 0 = false ∧
    (processV1D [V1DEv.call (Outcome.ok 4)]).defRunFuture 0 = none ∧
    ([V1DEv.elapse, V1DEv.settle 0].foldl stepV1D
        (stepV1D (processV1D [V1DEv.call (Outcome.ok 4)]) (V1DEv.microtask 0))).defRunFuture 0
      = some RunSettle.undef :=
  ⟨by decide, by decide, by decide,
   c10_deferred_run_resolves_undefined (processV1D [V1DEv.call (Outcome.ok 4)]) 0
     [V1DEv.elapse, V1DEv.settle 0] (by decide) (by decide) (by decide)⟩

/-- C4 counterexample: on the `src/src/index.ts` variant with trailing
debounce, one `run()` is submitted and deferred, then `abort()` is called
before the window elapses.  `abort()` returns early (no controller exists)
and never cancels the debounce wrapper, so the deferred-but-not-yet-started
invocation still executes when the window elapses: a task starts after the
abort, running the task submitted before it.  The claim fails for this
variant. -/
theorem c4_counterexample :
    (processV1D [V1DEv.call (Outcome.ok 7), V1DEv.abort]).core.nextTaskId = 0 ∧
    (processV1D [V1DEv.call (Outcome.ok 7), V1DEv.abort]).timerTask
      = some (0, Outcome.ok 7) ∧
    (processV1D [V1DEv.call (Outcome.ok 7), V1DEv.abort, V1DEv.elapse]).core.nextTaskId = 1 ∧
    (processV1D [V1DEv.call (Outcome.ok 7), V1DEv.abort,
        V1DEv.elapse]).core.controller = some 0 ∧
    (processV1D [V1DEv.call (Outcome.ok 7), V1DEv.abort,
        V1DEv.elapse]).core.taskOutcome 0 = Outcome.ok 7 := by
  decide

/-- C5 counterexample: on the `src/src/index.ts` variant, two `run()` calls
inside one trailing-debounce window start exactly one task (the last call's
task) — but the first call's future does not reject with `TaskIgnoredError`
(that error class does not even exist in this variant): it resolves with
`undefined` at its microtask check.  (So does the last call's future.) -/
theorem c5_counterexample :
    (processV1D [V1DEv.call (Outcome.ok 5), V1DEv.microtask 0, V1DEv.call (Outcome.ok 6),
        V1DEv.microtask 1, V1DEv.elapse]).defRunFuture 0 = some RunSettle.undef ∧
    (processV1D [V1DEv.call (Outcome.ok 5), V1DEv.microtask 0, V1DEv.call (Outcome.ok 6),
        V1DEv.microtask 1, V1DEv.elapse]).defRunFuture 1 = some RunSettle.undef ∧
    (processV1D [V1DEv.call (Outcome.ok 5), V1DEv.microtask 0, V1DEv.call (Outcome.ok 6),
        V1DEv.microtask 1, V1DEv.elapse]).core.nextTaskId = 1 ∧
    (processV1D [V1DEv.call (Outcome.ok 5), V1DEv.microtask 0, V1DEv.call (Outcome.ok 6),
        V1DEv.microtask 1, V1DEv.elapse]).core.taskOutcome 0 = Outcome.ok 6 := by
  decide

@[simp] theorem stepV2_call_nextCall (s : V2State) (a : Nat) (o : Outcome) :
    (stepV2 s (V2Ev.call a o)).nextCall = s.nextCall + 1 := rfl

@[simp] theorem stepV2_call_raceOpen (s : V2State) (a : Nat) (o : Outcome) :
    (stepV2 s (V2Ev.call a o)).raceOpen = s.raceOpen ++ [s.nextCall] := rfl

@[simp] theorem stepV2_call_pendingCall (s : V2State) (a : Nat) (o : Outcome) :
    (stepV2 s (V2Ev.call a o)).pendingCall = some s.nextCall := rfl

@[simp] theorem stepV2_call_startedTasks (s : V2State) (a : Nat) (o : Outcome) :
    (stepV2 s (V2Ev.call a o)).startedTasks = s.startedTasks := rfl

@[simp] theorem stepV2_call_controller (s : V2State) (a : Nat) (o : Outcome) :
    (stepV2 s (V2Ev.call a o)).leadingTaskController = s.leadingTaskController := rfl

@[simp] theorem stepV2_call_callFuture (s : V2State) (a : Nat) (o : Outcome) :
    (stepV2 s (V2Ev.call a o)).callFuture = s.callFuture := rfl

@[simp] theorem stepV2_call_callArgs (s : V2State) (a : Nat) (o : Outcome) (u : Nat) :
    (stepV2 s (V2Ev.call a o)).callArgs u
      = if u = s.nextCall then a else s.callArgs u := rfl

theorem runBurstV2_cons (s : V2State) (b : Nat × Outcome) (rest : List (Nat × Outcome)) :
    runBurstV2 s (b :: rest) = runBurstV2 (stepV2 s (V2Ev.call b.1 b.2)) rest := rfl

theorem runBurstV2_nextCall (bs : List (Nat × Outcome)) :
    ∀ s : V2State, (runBurstV2 s bs).nextCall = s.nextCall + bs.length := by
  induction bs with
  | nil => intro s; simp [runBurstV2]
  | cons b rest ih =>
    intro s
    rw [runBurstV2_cons, ih]
    simp
    omega

theorem runBurstV2_raceOpen (bs : List (Nat × Outcome)) :
    ∀ s : V2State, (runBurstV2 s bs).raceOpen
      = s.raceOpen ++ List.range' s.nextCall bs.length := by
  induction bs with
  | nil => intro s; simp [runBurstV2]
  | cons b rest ih =>
    intro s
    rw [runBurstV2_cons, ih]
    simp [List.range'_succ, List.append_assoc]

theorem runBurstV2_pendingCall (bs : List (Nat × Outcome)) :
    ∀ s : V2State, 0 < bs.length →
      (runBurstV2 s bs).pendingCall = some (s.nextCall + bs.length - 1) := by
  induction bs with
  | nil => intro s h; simp at h
  | cons b rest ih =>
    intro s _
    rw [runBurstV2_cons]
    cases rest with
    | nil => simp [runBurstV2]
    | cons c cs =>
      rw [ih _ (by simp)]
      simp
      omega

theorem runBurstV2_startedTasks (bs : List (Nat × Outcome)) :
    ∀ s : V2State, (runBurstV2 s bs).startedTasks = s.startedTasks := by
  induction bs with
  | nil => intro s; simp [runBurstV2]
  | cons b rest ih => intro s; rw [runBurstV2_cons, ih]; simp

theorem runBurstV2_controller (bs : List (Nat × Outcome)) :
    ∀ s : V2State, (runBurstV2 s bs).leadingTaskController = s.leadingTaskController := by
  induction bs with
  | nil => intro s; simp [runBurstV2]
  | cons b rest ih => intro s; rw [runBurstV2_cons, ih]; simp

theorem runBurstV2_callFuture (bs : List (Nat × Outcome)) :
    ∀ s : V2State, (runBurstV2 s bs).callFuture = s.callFuture := by
  induction bs with
  | nil => intro s; simp [runBurstV2]
  | cons b rest ih => intro s; rw [runBurstV2_cons, ih]; simp

theorem runBurstV2_callArgs_lt (bs : List (Nat × Outcome)) :
    ∀ (s : V2State) (u : Nat), u < s.nextCall →
      (runBurstV2 s bs).callArgs u = s.callArgs u := by
  induction bs with
  | nil => intro s u _; simp [runBurstV2]
  | cons b rest ih =>
    intro s u hu
    rw [runBurstV2_cons, ih _ _ (by simp; omega)]
    simp
    omega

theorem runBurstV2_callArgs_get (bs : List (Nat × Outcome)) :
    ∀ (s : V2State) (j : Nat) (h : j < bs.length),
      (runBurstV2 s bs).callArgs (s.nextCall + j) = (bs.get ⟨j, h⟩).1 := by
  induction bs with
  | nil => intro s j h; simp at h
  | cons b rest ih =>
    intro s j h
    cases j with
    | zero =>
      rw [runBurstV2_cons,
        runBurstV2_callArgs_lt rest (stepV2 s (V2Ev.call b.1 b.2)) (s.nextCall + 0)
          (by simp)]
      simp
    | succ j' =>
      have h' : j' < rest.length := by simpa using Nat.lt_of_succ_lt_succ h
      have := ih (stepV2 s (V2Ev.call b.1 b.2)) j' h'
      rw [runBurstV2_cons]
      simp only [stepV2_call_nextCall] at this
      have harith : s.nextCall + (j' + 1) = s.nextCall + 1 + j' := by omega
      rw [harith, this]
      simp

theorem mem_range'_iff (a s n : Nat) : a ∈ List.range' s n ↔ s ≤ a ∧ a < s + n := by
  induction n generalizing s with
  | zero => simp [List.range']
  | succ n ih =>
    rw [List.range'_succ]
    simp [ih]
    omega

theorem stepV2_elapse_none (s : V2State) (h : s.pendingCall = none) :
    stepV2 s V2Ev.elapse = s := by
  simp [stepV2, h]

theorem stepV2_elapse_startedTasks (s : V2State) (k : Nat) (h : s.pendingCall = some k) :
    (stepV2 s V2Ev.elapse).startedTasks = s.startedTasks ++ [k] := by
  cases hc : s.leadingTaskController <;> simp [stepV2, h, hc]

theorem stepV2_elapse_pendingCall (s : V2State) (k : Nat) (h : s.pendingCall = some k) :
    (stepV2 s V2Ev.elapse).pendingCall = none := by
  cases hc : s.leadingTaskController <;> simp [stepV2, h, hc]

theorem stepV2_elapse_nextCall (s : V2State) (k : Nat) (h : s.pendingCall = some k) :
    (stepV2 s V2Ev.elapse).nextCall = s.nextCall := by
  cases hc : s.leadingTaskController <;> simp [stepV2, h, hc]

theorem stepV2_elapse_callFuture (s : V2State) (k : Nat) (h : s.pendingCall = some k)
    (u : Nat) :
    (stepV2 s V2Ev.elapse).callFuture u
      = if u ∈ s.raceOpen ∧ u ≠ k ∧ s.callFuture u = V2Fut.pending
        then V2Fut.taskIgnoredRejection else s.callFuture u := by
  cases hc : s.leadingTaskController <;> simp [stepV2, h, hc]

theorem stepV2_elapse_callArgs (s : V2State) (k : Nat) (h : s.pendingCall = some k) :
    (stepV2 s V2Ev.elapse).callArgs = s.callArgs := by
  cases hc : s.leadingTaskController <;> simp [stepV2, h, hc]

theorem stepV2_abort_pendingCall (s : V2State) :
    (stepV2 s V2Ev.abort).pendingCall = none := by
  cases hc : s.leadingTaskController <;> simp [stepV2, hc]

theorem stepV2_abort_controller (s : V2State) :
    (stepV2 s V2Ev.abort).leadingTaskController = none := by
  cases hc : s.leadingTaskController <;> simp [stepV2, hc]

theorem stepV2_abort_seriesOpen (s : V2State) :
    (stepV2 s V2Ev.abort).currentSeriesOpen = false := by
  cases hc : s.leadingTaskController <;> simp [stepV2, hc]

theorem stepV2_abort_startedTasks (s : V2State) :
    (stepV2 s V2Ev.abort).startedTasks = s.startedTasks := by
  cases hc : s.leadingTaskController <;> simp [stepV2, hc]

theorem stepV2_abort_nextCall (s : V2State) :
    (stepV2 s V2Ev.abort).nextCall = s.nextCall := by
  cases hc : s.leadingTaskController <;> simp [stepV2, hc]

theorem stepV2_settle_frame (s : V2State) (k : Nat) :
    (stepV2 s (V2Ev.settle k)).startedTasks = s.startedTasks ∧
    (stepV2 s (V2Ev.settle k)).pendingCall = s.pendingCall ∧
    (stepV2 s (V2Ev.settle k)).nextCall = s.nextCall := by
  by_cases hg : k ∈ s.startedTasks ∧ s.taskSettled k = false
  · cases ho : s.callOutcome k <;> cases hb : s.taskAborted k <;>
      simp [stepV2, hg, ho, hb]
  · simp [stepV2, hg]

/-- C5 (amended): on the `part_004` variant (the one defining
`TaskIgnoredError`), N ≥ 1 `run()` calls issued within one trailing-only
debounce window start exactly one task — the last call's, with the last
call's arguments — and when the window elapses, each of the first N−1
calls' futures rejects with `TaskIgnoredError`, while the last call's
future is still pending (tied to the started task).  On the
`src/src/index.ts` variant the first N−1 futures instead resolve with
`undefined` (see the counterexample). -/
theorem c5_v2_debounce_trailing_burst (s : V2State) (bs : List (Nat × Outcome))
    (hlen : 0 < bs.length) (hrace : s.raceOpen = [])
    (hfresh : ∀ t, s.nextCall ≤ t → s.callFuture t = V2Fut.pending) :
    (stepV2 (runBurstV2 s bs) V2Ev.elapse).startedTasks
      = s.startedTasks ++ [s.nextCall + bs.length - 1] ∧
    (∀ j, j < bs.length - 1 →
      (stepV2 (runBurstV2 s bs) V2Ev.elapse).callFuture (s.nextCall + j)
        = V2Fut.taskIgnoredRejection) ∧
    (stepV2 (runBurstV2 s bs) V2Ev.elapse).callFuture (s.nextCall + bs.length - 1)
      = V2Fut.pending ∧
    ∀ (h : bs.length - 1 < bs.length),
      (stepV2 (runBurstV2 s bs) V2Ev.elapse).callArgs (s.nextCall + bs.length - 1)
        = (bs.get ⟨bs.length - 1, h⟩).1 := by
  have hpend := runBurstV2_pendingCall bs s hlen
  have hro := runBurstV2_raceOpen bs s
  have hfut := runBurstV2_callFuture bs s
  have hst := runBurstV2_startedTasks bs s
  refine ⟨?_, ?_, ?_, ?_⟩
  · rw [stepV2_elapse_startedTasks _ _ hpend, hst]
  · intro j hj
    rw [stepV2_elapse_callFuture _ _ hpend, hro, hrace, hfut]
    have hmem : s.nextCall + j ∈ List.range' s.nextCall bs.length := by
      rw [mem_range'_iff]; omega
    have hne : s.nextCall + j ≠ s.nextCall + bs.length - 1 := by omega
    have hpd : s.callFuture (s.nextCall + j) = V2Fut.pending :=
      hfresh _ (by omega)
    simp [hmem, hne, hpd]
  · rw [stepV2_elapse_callFuture _ _ hpend, hfut]
    simp [hfresh (s.nextCall + bs.length - 1) (by omega)]
  · intro h
    rw [stepV2_elapse_callArgs _ _ hpend]
    have hget := runBurstV2_callArgs_get bs s (bs.length - 1) h
    have harith : s.nextCall + bs.length - 1 = s.nextCall + (bs.length - 1) := by omega
    rw [harith, hget]

/-- C5 witness: a burst of three calls (arguments 10, 20, 30) in one
trailing-debounce window on a fresh V2 coordinator. -/
theorem c5_witness :
    0 < ([((10 : Nat), Outcome.ok 1), (20, Outcome.ok 2),
          (30, Outcome.ok 3)] : List (Nat × Outcome)).length ∧
    initV2.raceOpen = [] ∧
    (stepV2 (runBurstV2 initV2 [(10, Outcome.ok 1), (20, Outcome.ok 2), (30, Outcome.ok 3)])
        V2Ev.elapse).startedTasks = [2] ∧
    (stepV2 (runBurstV2 initV2 [(10, Outcome.ok 1), (20, Outcome.ok 2), (30, Outcome.ok 3)])
        V2Ev.elapse).callFuture 0 = V2Fut.taskIgnoredRejection ∧
    (stepV2 (runBurstV2 initV2 [(10, Outcome.ok 1), (20, Outcome.ok 2), (30, Outcome.ok 3)])
        V2Ev.elapse).callFuture 1 = V2Fut.taskIgnoredRejection ∧
    (stepV2 (runBurstV2 initV2 [(10, Outcome.ok 1), (20, Outcome.ok 2), (30, Outcome.ok 3)])
        V2Ev.elapse).callFuture 2 = V2Fut.pending ∧
    (stepV2 (runBurstV2 initV2 [(10, Outcome.ok 1), (20, Outcome.ok 2), (30, Outcome.ok 3)])
        V2Ev.elapse).callArgs 2 = 30 := by
  have h := c5_v2_debounce_trailing_burst initV2
    [(10, Outcome.ok 1), (20, Outcome.ok 2), (30, Outcome.ok 3)]
    (by decide) rfl (fun _ _ => rfl)
  refine ⟨by decide, rfl, ?_, ?_, ?_, ?_, ?_⟩
  · simpa [initV2] using h.1
  · simpa [initV2] using h.2.1 0 (by decide)
  · simpa [initV2] using h.2.1 1 (by decide)
  · simpa [initV2] using h.2.2.1
  · simpa [initV2] using h.2.2.2 (by decide)

/-- Bound used to show that after an `abort()` only freshly submitted calls
can ever start. -/
def startedBound (n : Nat) (old : List Nat) (s : V2State) : Prop :=
  (∀ j ∈ s.startedTasks, j ∈ old ∨ n ≤ j) ∧
  (∀ k, s.pendingCall = some k → n ≤ k) ∧
  n ≤ s.nextCall

theorem stepV2_startedBound (n : Nat) (old : List Nat) (s : V2State) (e : V2Ev)
    (h : startedBound n old s) : startedBound n old (stepV2 s e) := by
  obtain ⟨h1, h2, h3⟩ := h
  cases e with
  | call a o =>
    refine ⟨by simpa using h1, ?_, by simp; omega⟩
    intro k hk
    rw [stepV2_call_pendingCall] at hk
    cases hk
    exact h3
  | elapse =>
    cases hp : s.pendingCall with
    | none => rw [stepV2_elapse_none s hp]; exact ⟨h1, h2, h3⟩
    | some k =>
      have hk := h2 k hp
      refine ⟨?_, ?_, ?_⟩
      · rw [stepV2_elapse_startedTasks s k hp]
        intro j hj
        rcases List.mem_append.mp hj with hj | hj
        · exact h1 j hj
        · right
          simp at hj
          omega
      · intro k' hk'
        rw [stepV2_elapse_pendingCall s k hp] at hk'
        cases hk'
      · rw [stepV2_elapse_nextCall s k hp]; exact h3
  | abort =>
    refine ⟨?_, ?_, ?_⟩
    · rw [stepV2_abort_startedTasks]; exact h1
    · intro k hk
      rw [stepV2_abort_pendingCall] at hk
      cases hk
    · rw [stepV2_abort_nextCall]; exact h3
  | settle k =>
    obtain ⟨e1, e2, e3⟩ := stepV2_settle_frame s k
    refine ⟨by rw [e1]; exact h1, ?_, by rw [e3]; exact h3⟩
    intro k' hk'
    rw [e2] at hk'
    exact h2 k' hk'

theorem foldl_startedBound (n : Nat) (old : List Nat) :
    ∀ (es : List V2Ev) (s : V2State), startedBound n old s →
      startedBound n old (es.foldl stepV2 s) := by
  intro es
  induction es with
  | nil => intro s h; simpa using h
  | cons e rest ih =>
    intro s h
    simpa using ih _ (stepV2_startedBound n old s e h)

/-- C4 (amended): on the `part_004` variant (whose `abort()` calls
`debouncedOrThrottledRun.cancel()`), `abort()` discards the
deferred-but-not-yet-started invocation: afterwards nothing is pending, the
coordinator is idle (no controller, no open series), every task that ever
starts later is either one that had already started or one submitted by a
`run()` call issued after the abort — never a previously submitted
not-yet-started invocation — and a subsequent `run()` call is accepted
normally (it becomes the pending invocation and starts at the next trailing
edge).  On the `src/src/index.ts` variant `abort()` does not touch the
deferral wrapper and the claim fails (see the counterexample). -/
theorem c4_v2_abort_discards_deferred (s : V2State) :
    (stepV2 s V2Ev.abort).pendingCall = none ∧
    (stepV2 s V2Ev.abort).leadingTaskController = none ∧
    (stepV2 s V2Ev.abort).currentSeriesOpen = false ∧
    (∀ (es : List V2Ev) (j : Nat),
        j ∈ (es.foldl stepV2 (stepV2 s V2Ev.abort)).startedTasks →
        j ∈ s.startedTasks ∨ s.nextCall ≤ j) ∧
    (∀ a o, (stepV2 (stepV2 s V2Ev.abort) (V2Ev.call a o)).pendingCall
        = some s.nextCall) ∧
    (∀ a o,
        (stepV2 (stepV2 (stepV2 s V2Ev.abort) (V2Ev.call a o)) V2Ev.elapse).startedTasks
          = s.startedTasks ++ [s.nextCall]) := by
  refine ⟨stepV2_abort_pendingCall s, stepV2_abort_controller s,
    stepV2_abort_seriesOpen s, ?_, ?_, ?_⟩
  · intro es j hj
    have hb : startedBound s.nextCall s.startedTasks (stepV2 s V2Ev.abort) := by
      refine ⟨?_, ?_, ?_⟩
      · rw [stepV2_abort_startedTasks]
        intro j hj
        exact Or.inl hj
      · intro k hk
        rw [stepV2_abort_pendingCall] at hk
        cases hk
      · rw [stepV2_abort_nextCall]
    exact (foldl_startedBound s.nextCall s.startedTasks es _ hb).1 j hj
  · intro a o
    rw [stepV2_call_pendingCall, stepV2_abort_nextCall]
  · intro a o
    rw [stepV2_elapse_startedTasks _ s.nextCall
        (by rw [stepV2_call_pendingCall, stepV2_abort_nextCall]),
      stepV2_call_startedTasks, stepV2_abort_startedTasks]

/-- C4 witness: one call is deferred, `abort()` discards it, the window
elapses harmlessly, a fresh call is submitted and starts: the only task
that ever starts is the fresh call (id 1), not the discarded one (id 0). -/
theorem c4_witness :
    (1 : Nat) ∈ ([V2Ev.elapse, V2Ev.call 2 (Outcome.ok 9), V2Ev.elapse].foldl stepV2
      (stepV2 (stepV2 initV2 (V2Ev.call 1 (Outcome.ok 5))) V2Ev.abort)).startedTasks ∧
    ((1 : Nat) ∈ (stepV2 initV2 (V2Ev.call 1 (Outcome.ok 5))).startedTasks ∨
      (stepV2 initV2 (V2Ev.call 1 (Outcome.ok 5))).nextCall ≤ 1) ∧
    (stepV2 (stepV2 initV2 (V2Ev.call 1 (Outcome.ok 5))) V2Ev.abort).pendingCall = none :=
  ⟨by decide,
   (c4_v2_abort_discards_deferred (stepV2 initV2 (V2Ev.call 1 (Outcome.ok 5)))).2.2.2.1
     [V2Ev.elapse, V2Ev.call 2 (Outcome.ok 9), V2Ev.elapse] 1 (by decide),
   (c4_v2_abort_discards_deferred (stepV2 initV2 (V2Ev.call 1 (Outcome.ok 5)))).1⟩

theorem stepV1_run_none_none (s : V1State) (o : Outcome)
    (h1 : s.resultPromiseGen = none) (h2 : s.controller = none) :
    stepV1 s (V1Ev.run o) =
      { s with resultPromiseGen := some s.genCounter,
               genCounter := s.genCounter + 1,
               hookEvents := s.hookEvents ++ [HookEv.seriesStarted],
               controller := some s.nextTaskId,
               taskOutcome := setOutcome s.taskOutcome s.nextTaskId o,
               nextTaskId := s.nextTaskId + 1 } := by
  simp [stepV1, h1, h2]

theorem stepV1_run_none_some (s : V1State) (o : Outcome) (t : Nat)
    (h1 : s.resultPromiseGen = none) (h2 : s.controller = some t) :
    stepV1 s (V1Ev.run o) =
      { s with resultPromiseGen := some s.genCounter,
               genCounter := s.genCounter + 1,
               hookEvents := s.hookEvents
                 ++ [HookEv.seriesStarted, HookEv.abortedHook false],
               signalAborted := setFlag s.signalAborted t,
               controller := some s.nextTaskId,
               taskOutcome := setOutcome s.taskOutcome s.nextTaskId o,
               nextTaskId := s.nextTaskId + 1 } := by
  simp [stepV1, h1, h2]

theorem stepV1_run_some_none (s : V1State) (o : Outcome) (g : Nat)
    (h1 : s.resultPromiseGen = some g) (h2 : s.controller = none) :
    stepV1 s (V1Ev.run o) =
      { s with hookEvents := s.hookEvents ++ [HookEv.seriesStarted],
               controller := some s.nextTaskId,
               taskOutcome := setOutcome s.taskOutcome s.nextTaskId o,
               nextTaskId := s.nextTaskId + 1 } := by
  simp [stepV1, h1, h2]

theorem stepV1_run_some_some (s : V1State) (o : Outcome) (g : Nat) (t : Nat)
    (h1 : s.resultPromiseGen = some g) (h2 : s.controller = some t) :
    stepV1 s (V1Ev.run o) =
      { s with hookEvents := s.hookEvents
                 ++ [HookEv.seriesStarted, HookEv.abortedHook false],
               signalAborted := setFlag s.signalAborted t,
               controller := some s.nextTaskId,
               taskOutcome := setOutcome s.taskOutcome s.nextTaskId o,
               nextTaskId := s.nextTaskId + 1 } := by
  simp [stepV1, h1, h2]

/-- Reachability invariant of the V1 machine: the live series promise is a
generation no settlement has touched yet, every recorded settlement is of an
older generation, tasks that have not started are neither aborted nor
settled, the slot holds a started task, and every started task other than
the slot's occupant has an aborted signal. -/
def Inv (s : V1State) : Prop :=
  (∀ G, s.resultPromiseGen = some G → G < s.genCounter) ∧
  (∀ G, s.resultPromiseGen = some G → ∀ ent ∈ s.seriesSettlements, ent.gen ≠ G) ∧
  (∀ ent ∈ s.seriesSettlements, ent.gen < s.genCounter) ∧
  (∀ t, s.nextTaskId ≤ t → s.signalAborted t = false ∧ s.taskSettled t = false) ∧
  (∀ t, s.controller = some t → t < s.nextTaskId) ∧
  (∀ t, t < s.nextTaskId → s.signalAborted t = true ∨ s.controller = some t)

theorem inv_init : Inv initV1 := by
  refine ⟨?_, ?_, ?_, ?_, ?_, ?_⟩ <;> intro t h <;> simp_all [initV1]

theorem stepV1_run_shape (s : V1State) (o : Outcome) (hInv : Inv s) :
    ∃ gc' rpg' ab' ev',
        stepV1 s (V1Ev.run o) =
          { s with resultPromiseGen := rpg', genCounter := gc',
                   hookEvents := ev', signalAborted := ab',
                   controller := some s.nextTaskId,
                   taskOutcome := setOutcome s.taskOutcome s.nextTaskId o,
                   nextTaskId := s.nextTaskId + 1 } ∧
          (∀ G, rpg' = some G → G < gc' ∧ ∀ ent ∈ s.seriesSettlements, ent.gen ≠ G) ∧
          s.genCounter ≤ gc' ∧
          (∀ u, s.signalAborted u = true → ab' u = true) ∧
          (∀ u, s.nextTaskId ≤ u → ab' u = s.signalAborted u) ∧
          (∀ u, u < s.nextTaskId → ab' u = true ∨ (s.controller = some u ∧ ab' u = s.signalAborted u) ∨
            (s.controller ≠ some u ∧ ab' u = s.signalAborted u)) ∧
          (∀ t0, s.controller = some t0 → ab' t0 = true) ∧
          (∀ u, s.controller = none → ab' u = s.signalAborted u) := by
  obtain ⟨ha1, ha2, hb, hc, hd, he⟩ := hInv
  cases h1 : s.resultPromiseGen with
  | none =>
    cases h2 : s.controller with
    | none =>
      refine ⟨s.genCounter + 1, some s.genCounter, s.signalAborted, _,
        stepV1_run_none_none s o h1 h2, ?_, ?_, ?_, ?_, ?_, ?_, ?_⟩
      · intro G hG
        cases hG
        exact ⟨Nat.lt_succ_self _, fun ent hent => Nat.ne_of_lt (hb ent hent)⟩
      · omega
      · intro u hu; exact hu
      · intro u _; rfl
      · intro u _; right; right; exact ⟨by simp [h2], rfl⟩
      · intro t0 ht0; exact Option.noConfusion ht0
      · intro u _; rfl
    | some t =>
      refine ⟨s.genCounter + 1, some s.genCounter, setFlag s.signalAborted t, _,
        stepV1_run_none_some s o t h1 h2, ?_, ?_, ?_, ?_, ?_, ?_, ?_⟩
      · intro G hG
        cases hG
        exact ⟨Nat.lt_succ_self _, fun ent hent => Nat.ne_of_lt (hb ent hent)⟩
      · omega
      · intro u hu
        by_cases hut : u = t
        · subst hut; simp
        · simpa [setFlag, hut] using hu
      · intro u hu
        have : u ≠ t := by
          have := hd t h2
          omega
        simp [setFlag, this]
      · intro u _
        by_cases hut : u = t
        · subst hut; left; simp
        · right; right
          exact ⟨by simp; omega, by simp [setFlag, hut]⟩
      · intro t0 ht0
        injection ht0 with hh
        subst hh
        simp
      · intro u hctr; exact Option.noConfusion hctr
  | some g =>
    cases h2 : s.controller with
    | none =>
      refine ⟨s.genCounter, s.resultPromiseGen, s.signalAborted, _,
        stepV1_run_some_none s o g h1 h2, ?_, ?_, ?_, ?_, ?_, ?_, ?_⟩
      · intro G hG
        exact ⟨ha1 G hG, ha2 G hG⟩
      · omega
      · intro u hu; exact hu
      · intro u _; rfl
      · intro u _; right; right; exact ⟨by simp [h2], rfl⟩
      · intro t0 ht0; exact Option.noConfusion ht0
      · intro u _; rfl
    | some t =>
      refine ⟨s.genCounter, s.resultPromiseGen, setFlag s.signalAborted t, _,
        stepV1_run_some_some s o g t h1 h2, ?_, ?_, ?_, ?_, ?_, ?_, ?_⟩
      · intro G hG
        exact ⟨ha1 G hG, ha2 G hG⟩
      · omega
      · intro u hu
        by_cases hut : u = t
        · subst hut; simp
        · simpa [setFlag, hut] using hu
      · intro u hu
        have : u ≠ t := by
          have := hd t h2
          omega
        simp [setFlag, this]
      · intro u _
        by_cases hut : u = t
        · subst hut; left; simp
        · right; right
          exact ⟨by simp; omega, by simp [setFlag, hut]⟩
      · intro t0 ht0
        injection ht0 with hh
        subst hh
        simp
      · intro u hctr; exact Option.noConfusion hctr

theorem inv_step (s : V1State) (e : V1Ev) (h : Inv s) : Inv (stepV1 s e) := by
  obtain ⟨ha1, ha2, hb, hc, hd, he⟩ := h
  cases e with
  | run o =>
    have hstep := stepV1_run_shape s o ⟨ha1, ha2, hb, hc, hd, he⟩
    obtain ⟨gc', rpg', ab', ev', heq, hfresh, hgc, hmono, hhigh, hlow, hctl, hnone⟩ := hstep
    rw [heq]
    unfold Inv
    dsimp only
    refine ⟨?_, ?_, ?_, ?_, ?_, ?_⟩
    · intro G hG
      exact (hfresh G hG).1
    · intro G hG ent hent
      exact (hfresh G hG).2 ent hent
    · intro ent hent
      exact Nat.lt_of_lt_of_le (hb ent hent) hgc
    · intro t ht
      have ht' : s.nextTaskId ≤ t := by omega
      refine ⟨?_, (hc t ht').2⟩
      rw [hhigh t ht']
      exact (hc t ht').1
    · intro t ht
      cases ht
      omega
    · intro t ht
      by_cases hteq : t = s.nextTaskId
      · subst hteq
        right
        rfl
      · have htlt : t < s.nextTaskId := by omega
        left
        rcases he t htlt with hab | hcur
        · exact hmono t hab
        · rw [hcur] at hctl
          exact hctl t rfl
  | abort =>
    cases h2 : s.controller with
    | none => simp only [stepV1, h2]; exact ⟨ha1, ha2, hb, hc, hd, he⟩
    | some t =>
      by_cases hab : s.signalAborted t
      · simp only [stepV1, h2, hab, if_true]
        exact ⟨ha1, ha2, hb, hc, hd, he⟩
      · have heq : stepV1 s V1Ev.abort =
            { s with signalAborted := setFlag s.signalAborted t,
                     hookEvents := s.hookEvents ++ [HookEv.abortedHook true],
                     resultPromiseGen := none } := by
          simp [stepV1, h2, hab]
        rw [heq]
        unfold Inv
        dsimp only
        refine ⟨?_, ?_, ?_, ?_, ?_, ?_⟩
        · intro G hG; cases hG
        · intro G hG; cases hG
        · exact hb
        · intro u hu
          have : u ≠ t := by
            have := hd t h2
            omega
          simp only [setFlag, if_neg this]
          exact hc u hu
        · exact hd
        · intro u hu
          rcases he u hu with hu' | hu'
          · left
            by_cases hut : u = t
            · subst hut; simp
            · simpa [setFlag, hut] using hu'
          · by_cases hut : u = t
            · subst hut; left; simp
            · right; exact hu'
  | settle i =>
    by_cases hg : i < s.nextTaskId ∧ s.taskSettled i = false
    · cases ho : s.taskOutcome i with
      | ok v =>
        by_cases hab : s.signalAborted i = true
        · have heq : stepV1 s (V1Ev.settle i) =
              { s with taskSettled := setFlag s.taskSettled i,
                       runFuture := setFuture s.runFuture i (FutureVal.resolvedVal v) } := by
            simp [stepV1, hg, ho, hab]
          rw [heq]
          unfold Inv
          dsimp only
          refine ⟨ha1, ha2, hb, ?_, hd, he⟩
          intro u hu
          have : u ≠ i := by omega
          simp only [setFlag, if_neg this]
          exact hc u hu
        · have heq : stepV1 s (V1Ev.settle i) =
              { s with taskSettled := setFlag s.taskSettled i,
                       runFuture := setFuture s.runFuture i (FutureVal.resolvedVal v),
                       seriesSettlements := s.seriesSettlements ++
                         (match s.resultPromiseGen with
                          | some g => [⟨g, i, Outcome.ok v⟩]
                          | none => []),
                       hookEvents := s.hookEvents ++ [HookEv.completeHook v true],
                       resultPromiseGen := none } := by
            simp [stepV1, hg, ho, hab]
          rw [heq]
          unfold Inv
          dsimp only
          refine ⟨?_, ?_, ?_, ?_, hd, he⟩
          · intro G hG; cases hG
          · intro G hG; cases hG
          · intro ent hent
            rcases List.mem_append.mp hent with hent | hent
            · exact hb ent hent
            · cases hrg : s.resultPromiseGen with
              | none => rw [hrg] at hent; cases hent
              | some g =>
                rw [hrg] at hent
                simp at hent
                subst hent
                exact ha1 g hrg
          · intro u hu
            have : u ≠ i := by omega
            simp only [setFlag, if_neg this]
            exact hc u hu
      | err e =>
        by_cases hab : s.signalAborted i = true
        · have heq : stepV1 s (V1Ev.settle i) =
              { s with taskSettled := setFlag s.taskSettled i,
                       runFuture := setFuture s.runFuture i (FutureVal.rejectedErr e),
                       hookEvents := s.hookEvents ++ [HookEv.errorHook e false] } := by
            simp [stepV1, hg, ho, hab]
          rw [heq]
          unfold Inv
          dsimp only
          refine ⟨ha1, ha2, hb, ?_, hd, he⟩
          intro u hu
          have : u ≠ i := by omega
          simp only [setFlag, if_neg this]
          exact hc u hu
        · have heq : stepV1 s (V1Ev.settle i) =
              { s with taskSettled := setFlag s.taskSettled i,
                       runFuture := setFuture s.runFuture i (FutureVal.rejectedErr e),
                       seriesSettlements := s.seriesSettlements ++
                         (match s.resultPromiseGen with
                          | some g => [⟨g, i, Outcome.err e⟩]
                          | none => []),
                       hookEvents := s.hookEvents ++ [HookEv.errorHook e true],
                       resultPromiseGen := none } := by
            simp [stepV1, hg, ho, hab]
          rw [heq]
          unfold Inv
          dsimp only
          refine ⟨?_, ?_, ?_, ?_, hd, he⟩
          · intro G hG; cases hG
          · intro G hG; cases hG
          · intro ent hent
            rcases List.mem_append.mp hent with hent | hent
            · exact hb ent hent
            · cases hrg : s.resultPromiseGen with
              | none => rw [hrg] at hent; cases hent
              | some g =>
                rw [hrg] at hent
                simp at hent
                subst hent
                exact ha1 g hrg
          · intro u hu
            have : u ≠ i := by omega
            simp only [setFlag, if_neg this]
            exact hc u hu
    · have heq : stepV1 s (V1Ev.settle i) = s := by
        simp [stepV1, hg]
      rw [heq]
      exact ⟨ha1, ha2, hb, hc, hd, he⟩

theorem inv_processV1 (es : List V1Ev) : Inv (processV1 es) := by
  have : ∀ (l : List V1Ev) (s : V1State), Inv s → Inv (l.foldl stepV1 s) := by
    intro l
    induction l with
    | nil => intro s h; simpa using h
    | cons e rest ih =>
      intro s h
      simpa using ih _ (inv_step s e h)
  exact this es initV1 inv_init

theorem stepV1_settle_noop (s : V1State) (i : Nat)
    (h : ¬(i < s.nextTaskId ∧ s.taskSettled i = false)) :
    stepV1 s (V1Ev.settle i) = s := by
  simp [stepV1, h]

theorem stepV1_settle_aborted_ok (s : V1State) (i v : Nat)
    (hg : i < s.nextTaskId ∧ s.taskSettled i = false)
    (ho : s.taskOutcome i = Outcome.ok v) (hab : s.signalAborted i = true) :
    stepV1 s (V1Ev.settle i)
      = { s with taskSettled := setFlag s.taskSettled i,
                 runFuture := setFuture s.runFuture i (FutureVal.resolvedVal v) } := by
  simp [stepV1, hg, ho, hab]

theorem stepV1_settle_aborted_err (s : V1State) (i e : Nat)
    (hg : i < s.nextTaskId ∧ s.taskSettled i = false)
    (ho : s.taskOutcome i = Outcome.err e) (hab : s.signalAborted i = true) :
    stepV1 s (V1Ev.settle i)
      = { s with taskSettled := setFlag s.taskSettled i,
                 runFuture := setFuture s.runFuture i (FutureVal.rejectedErr e),
                 hookEvents := s.hookEvents ++ [HookEv.errorHook e false] } := by
  simp [stepV1, hg, ho, hab]

theorem stepV1_settle_live_ok (s : V1State) (i v : Nat)
    (hg : i < s.nextTaskId ∧ s.taskSettled i = false)
    (ho : s.taskOutcome i = Outcome.ok v) (hab : s.signalAborted i = false) :
    stepV1 s (V1Ev.settle i)
      = { s with taskSettled := setFlag s.taskSettled i,
                 runFuture := setFuture s.runFuture i (FutureVal.resolvedVal v),
                 seriesSettlements := s.seriesSettlements ++
                   (match s.resultPromiseGen with
                    | some g => [⟨g, i, Outcome.ok v⟩]
                    | none => []),
                 hookEvents := s.hookEvents ++ [HookEv.completeHook v true],
                 resultPromiseGen := none } := by
  simp [stepV1, hg, ho, hab]

theorem stepV1_settle_live_err (s : V1State) (i e : Nat)
    (hg : i < s.nextTaskId ∧ s.taskSettled i = false)
    (ho : s.taskOutcome i = Outcome.err e) (hab : s.signalAborted i = false) :
    stepV1 s (V1Ev.settle i)
      = { s with taskSettled := setFlag s.taskSettled i,
                 runFuture := setFuture s.runFuture i (FutureVal.rejectedErr e),
                 seriesSettlements := s.seriesSettlements ++
                   (match s.resultPromiseGen with
                    | some g => [⟨g, i, Outcome.err e⟩]
                    | none => []),
                 hookEvents := s.hookEvents ++ [HookEv.errorHook e true],
                 resultPromiseGen := none } := by
  simp [stepV1, hg, ho, hab]

/-- Shape of the state right after the last accepted `run()`: the last task
is un-aborted and un-settled, every earlier task's signal is aborted, and no
task beyond the last has settled. -/
def CommonP (lastId : Nat) (o : Outcome) (s : V1State) : Prop :=
  s.nextTaskId = lastId + 1 ∧
  s.taskOutcome lastId = o ∧
  s.signalAborted lastId = false ∧
  (∀ t, t < lastId → s.signalAborted t = true) ∧
  (∀ t, lastId + 1 ≤ t → s.taskSettled t = false)

/-- The series promise of generation `g` is still pending: the last task has
not settled and no settlement of generation `g` has been recorded. -/
def PendP (g lastId : Nat) (s : V1State) : Prop :=
  s.resultPromiseGen = some g ∧ s.taskSettled lastId = false ∧
  (∀ ent ∈ s.seriesSettlements, ent.gen ≠ g)

/-- The series promise of generation `g` has been settled, exactly once, by
the last task with its own outcome. -/
def DoneP (g lastId : Nat) (o : Outcome) (s : V1State) : Prop :=
  s.taskSettled lastId = true ∧
  s.seriesSettlements.filter (fun ent => ent.gen == g) = [⟨g, lastId, o⟩]

theorem kstep_pend (g lastId : Nat) (o : Outcome) (s : V1State) (i : Nat)
    (hcom : CommonP lastId o s) (hp : PendP g lastId s) :
    CommonP lastId o (stepV1 s (V1Ev.settle i)) ∧
    (PendP g lastId (stepV1 s (V1Ev.settle i)) ∨
      DoneP g lastId o (stepV1 s (V1Ev.settle i))) ∧
    (i = lastId → DoneP g lastId o (stepV1 s (V1Ev.settle i))) := by
  obtain ⟨hn, hout, habL, habLow, hsetHigh⟩ := hcom
  obtain ⟨hgen, hsetL, hnog⟩ := hp
  by_cases hg : i < s.nextTaskId ∧ s.taskSettled i = false
  · by_cases hil : i = lastId
    · subst hil
      have hfilt : s.seriesSettlements.filter (fun ent => ent.gen == g) = [] :=
        List.filter_eq_nil_iff.mpr (fun ent hent => by simp [hnog ent hent])
      cases o with
      | ok v =>
        rw [stepV1_settle_live_ok s i v hg hout habL]
        unfold CommonP PendP DoneP
        dsimp only
        rw [hgen]
        refine ⟨⟨hn, hout, habL, habLow, ?_⟩, Or.inr ⟨by simp, ?_⟩,
          fun _ => ⟨by simp, ?_⟩⟩
        · intro t ht
          have : t ≠ i := by omega
          simp only [setFlag, if_neg this]
          exact hsetHigh t ht
        · rw [List.filter_append, hfilt]
          simp
        · rw [List.filter_append, hfilt]
          simp
      | err e =>
        rw [stepV1_settle_live_err s i e hg hout habL]
        unfold CommonP PendP DoneP
        dsimp only
        rw [hgen]
        refine ⟨⟨hn, hout, habL, habLow, ?_⟩, Or.inr ⟨by simp, ?_⟩,
          fun _ => ⟨by simp, ?_⟩⟩
        · intro t ht
          have : t ≠ i := by omega
          simp only [setFlag, if_neg this]
          exact hsetHigh t ht
        · rw [List.filter_append, hfilt]
          simp
        · rw [List.filter_append, hfilt]
          simp
    · have hia : s.signalAborted i = true := by
        apply habLow
        omega
      have hcom' : ∀ f r, CommonP lastId o
          { s with taskSettled := setFlag s.taskSettled i, runFuture := f,
                   hookEvents := r } := by
        intro f r
        refine ⟨hn, hout, habL, habLow, ?_⟩
        intro t ht
        have : t ≠ i := by omega
        simp only [setFlag, if_neg this]
        exact hsetHigh t ht
      have hpend' : ∀ f r, PendP g lastId
          { s with taskSettled := setFlag s.taskSettled i, runFuture := f,
                   hookEvents := r } := by
        intro f r
        refine ⟨hgen, ?_, hnog⟩
        simp only [setFlag, if_neg (show ¬lastId = i by omega)]
        exact hsetL
      cases ho : s.taskOutcome i with
      | ok v =>
        rw [stepV1_settle_aborted_ok s i v hg ho hia]
        exact ⟨hcom' _ _, Or.inl (hpend' _ _), fun h => absurd h hil⟩
      | err e =>
        rw [stepV1_settle_aborted_err s i e hg ho hia]
        exact ⟨hcom' _ _, Or.inl (hpend' _ _), fun h => absurd h hil⟩
  · rw [stepV1_settle_noop s i hg]
    refine ⟨⟨hn, hout, habL, habLow, hsetHigh⟩, Or.inl ⟨hgen, hsetL, hnog⟩, ?_⟩
    intro hil
    subst hil
    exact absurd ⟨by omega, hsetL⟩ hg

theorem kstep_done (g lastId : Nat) (o : Outcome) (s : V1State) (i : Nat)
    (hcom : CommonP lastId o s) (hd : DoneP g lastId o s) :
    CommonP lastId o (stepV1 s (V1Ev.settle i)) ∧
    DoneP g lastId o (stepV1 s (V1Ev.settle i)) := by
  obtain ⟨hn, hout, habL, habLow, hsetHigh⟩ := hcom
  obtain ⟨hsetL, hfilt⟩ := hd
  by_cases hg : i < s.nextTaskId ∧ s.taskSettled i = false
  · have hil : i ≠ lastId := by
      intro h
      subst h
      rw [hsetL] at hg
      exact absurd hg.2 (by simp)
    have hia : s.signalAborted i = true := by
      apply habLow
      omega
    have hcom' : ∀ f r, CommonP lastId o
        { s with taskSettled := setFlag s.taskSettled i, runFuture := f,
                 hookEvents := r } := by
      intro f r
      refine ⟨hn, hout, habL, habLow, ?_⟩
      intro t ht
      have : t ≠ i := by omega
      simp only [setFlag, if_neg this]
      exact hsetHigh t ht
    have hdone' : ∀ f r, DoneP g lastId o
        { s with taskSettled := setFlag s.taskSettled i, runFuture := f,
                 hookEvents := r } := by
      intro f r
      refine ⟨?_, hfilt⟩
      simp only [setFlag, if_neg (show ¬lastId = i by omega)]
      exact hsetL
    cases ho : s.taskOutcome i with
    | ok v =>
      rw [stepV1_settle_aborted_ok s i v hg ho hia]
      exact ⟨hcom' _ _, hdone' _ _⟩
    | err e =>
      rw [stepV1_settle_aborted_err s i e hg ho hia]
      exact ⟨hcom' _ _, hdone' _ _⟩
  · rw [stepV1_settle_noop s i hg]
    exact ⟨⟨hn, hout, habL, habLow, hsetHigh⟩, hsetL, hfilt⟩

theorem kfold_main (g lastId : Nat) (o : Outcome) :
    ∀ (post : List V1Ev), (∀ e ∈ post, V1Ev.isSettle e = true) →
      ∀ s, CommonP lastId o s → (PendP g lastId s ∨ DoneP g lastId o s) →
        CommonP lastId o (post.foldl stepV1 s) ∧
        (PendP g lastId (post.foldl stepV1 s) ∨
          DoneP g lastId o (post.foldl stepV1 s)) := by
  intro post
  induction post with
  | nil =>
    intro _ s h1 h2
    simpa using ⟨h1, h2⟩
  | cons e rest ih =>
    intro hset s h1 h2
    have he : V1Ev.isSettle e = true := hset e (by simp)
    have hrest : ∀ e ∈ rest, V1Ev.isSettle e = true :=
      fun e hmem => hset e (by simp [hmem])
    cases e with
    | run o' => simp [V1Ev.isSettle] at he
    | abort => simp [V1Ev.isSettle] at he
    | settle i =>
      rcases h2 with hp | hd
      · obtain ⟨hc', hpd', _⟩ := kstep_pend g lastId o s i h1 hp
        simpa using ih hrest _ hc' hpd'
      · obtain ⟨hc', hd'⟩ := kstep_done g lastId o s i h1 hd
        simpa using ih hrest _ hc' (Or.inr hd')

theorem kfold_done (g lastId : Nat) (o : Outcome) :
    ∀ (post : List V1Ev), (∀ e ∈ post, V1Ev.isSettle e = true) →
      ∀ s, CommonP lastId o s → DoneP g lastId o s →
        DoneP g lastId o (post.foldl stepV1 s) := by
  intro post
  induction post with
  | nil =>
    intro _ s _ h2
    simpa using h2
  | cons e rest ih =>
    intro hset s h1 h2
    have he : V1Ev.isSettle e = true := hset e (by simp)
    have hrest : ∀ e ∈ rest, V1Ev.isSettle e = true :=
      fun e hmem => hset e (by simp [hmem])
    cases e with
    | run o' => simp [V1Ev.isSettle] at he
    | abort => simp [V1Ev.isSettle] at he
    | settle i =>
      obtain ⟨hc', hd'⟩ := kstep_done g lastId o s i h1 h2
      simpa using ih hrest _ hc' hd'

theorem kfold_mem (g lastId : Nat) (o : Outcome) :
    ∀ (post : List V1Ev), (∀ e ∈ post, V1Ev.isSettle e = true) →
      ∀ s, CommonP lastId o s → (PendP g lastId s ∨ DoneP g lastId o s) →
        V1Ev.settle lastId ∈ post →
        DoneP g lastId o (post.foldl stepV1 s) := by
  intro post
  induction post with
  | nil =>
    intro _ s _ _ hmem
    simp at hmem
  | cons e rest ih =>
    intro hset s h1 h2 hmem
    have hrest : ∀ e ∈ rest, V1Ev.isSettle e = true :=
      fun e hmem => hset e (by simp [hmem])
    have he : V1Ev.isSettle e = true := hset e (by simp)
    cases e with
    | run o' => simp [V1Ev.isSettle] at he
    | abort => simp [V1Ev.isSettle] at he
    | settle i =>
      by_cases hil : i = lastId
      · subst hil
        rcases h2 with hp | hd
        · obtain ⟨hc', _, hdone'⟩ := kstep_pend g i o s i h1 hp
          simpa using kfold_done g i o rest hrest _ hc' (hdone' rfl)
        · obtain ⟨hc', hd'⟩ := kstep_done g i o s i h1 hd
          simpa using kfold_done g i o rest hrest _ hc' hd'
      · have hmem' : V1Ev.settle lastId ∈ rest := by
          rcases List.mem_cons.mp hmem with h | h
          · exfalso
            injection h with hh
            exact hil hh.symm
          · exact h
        rcases h2 with hp | hd
        · obtain ⟨hc', hpd', _⟩ := kstep_pend g lastId o s i h1 hp
          simpa using ih hrest _ hc' hpd' hmem'
        · obtain ⟨hc', hd'⟩ := kstep_done g lastId o s i h1 hd
          simpa using ih hrest _ hc' (Or.inr hd') hmem'

theorem runStep_setup (s : V1State) (o : Outcome) (hInv : Inv s) (g : Nat)
    (hg : (stepV1 s (V1Ev.run o)).resultPromiseGen = some g) :
    CommonP s.nextTaskId o (stepV1 s (V1Ev.run o)) ∧
    PendP g s.nextTaskId (stepV1 s (V1Ev.run o)) := by
  obtain ⟨ha1, ha2, hb, hc, hd, he⟩ := hInv
  obtain ⟨gc', rpg', ab', ev', heq, hfresh, hgc, hmono, hhigh, hlow, hctl, hnone⟩ :=
    stepV1_run_shape s o ⟨ha1, ha2, hb, hc, hd, he⟩
  rw [heq] at hg ⊢
  unfold CommonP PendP
  dsimp only at hg ⊢
  refine ⟨⟨rfl, by simp, ?_, ?_, ?_⟩, hg, ?_, ?_⟩
  · rw [hhigh s.nextTaskId (le_refl _)]
    exact (hc s.nextTaskId (le_refl _)).1
  · intro t ht
    rcases hlow t ht with h | ⟨hcur, _⟩ | ⟨hncur, hkeep⟩
    · exact h
    · exact hctl t hcur
    · rcases he t ht with hab | hcur
      · rw [hkeep]
        exact hab
      · exact absurd hcur hncur
  · intro t ht
    exact (hc t (by omega)).2
  · exact (hc s.nextTaskId (le_refl _)).2
  · intro ent hent
    exact (hfresh g hg).2 ent hent

/-- C1: with no deferral configured, for every sequence of `run()` calls and
every relative settlement order of the tasks' promises, the series future —
the `resultPromise` generation live right after the last `run()` call, the
promise the `result` getter exposes — settles exactly as the last call's
task settles: every settlement recorded for that generation is by the last
task with the last task's outcome (no earlier call's outcome ever resolves
or rejects it), and if the last task settles, that settlement is recorded. -/
theorem c1_last_call_outcome_is_series_outcome (pre post : List V1Ev) (o : Outcome)
    (hpost : ∀ e ∈ post, V1Ev.isSettle e = true) :
    ∀ g, (processV1 (pre ++ [V1Ev.run o])).resultPromiseGen = some g →
      (∀ ent ∈ (post.foldl stepV1 (processV1 (pre ++ [V1Ev.run o]))).seriesSettlements,
          ent.gen = g → ent.task = (processV1 pre).nextTaskId ∧ ent.out = o) ∧
      (V1Ev.settle (processV1 pre).nextTaskId ∈ post →
        (⟨g, (processV1 pre).nextTaskId, o⟩ : SeriesSettlement)
          ∈ (post.foldl stepV1 (processV1 (pre ++ [V1Ev.run o]))).seriesSettlements) := by
  intro g hg
  have happ : processV1 (pre ++ [V1Ev.run o])
      = stepV1 (processV1 pre) (V1Ev.run o) := by
    simp [processV1, List.foldl_append]
  rw [happ] at hg ⊢
  have hInv := inv_processV1 pre
  obtain ⟨hcom, hpend⟩ := runStep_setup (processV1 pre) o hInv g hg
  obtain ⟨hcomF, hpdF⟩ :=
    kfold_main g (processV1 pre).nextTaskId o post hpost _ hcom (Or.inl hpend)
  constructor
  · intro ent hent hgen
    rcases hpdF with hpF | hdF
    · exact absurd hgen (hpF.2.2 ent hent)
    · have hmemf : ent ∈ (post.foldl stepV1
          (stepV1 (processV1 pre) (V1Ev.run o))).seriesSettlements.filter
            (fun e => e.gen == g) :=
        List.mem_filter.mpr ⟨hent, by simp [hgen]⟩
      rw [hdF.2] at hmemf
      simp at hmemf
      exact ⟨by rw [hmemf], by rw [hmemf]⟩
  · intro hmem
    have hdF := kfold_mem g (processV1 pre).nextTaskId o post hpost _ hcom
      (Or.inl hpend) hmem
    have hx : (⟨g, (processV1 pre).nextTaskId, o⟩ : SeriesSettlement)
        ∈ (post.foldl stepV1
            (stepV1 (processV1 pre) (V1Ev.run o))).seriesSettlements.filter
              (fun e => e.gen == g) := by
      rw [hdF.2]
      simp
    exact List.mem_of_mem_filter hx

/-- C1 witness: two runs, with the displaced first task settling before the
last; the series future of the generation live after the last run settles
with the last task's outcome. -/
theorem c1_witness :
    (∀ e ∈ [V1Ev.settle 0, V1Ev.settle 1], V1Ev.isSettle e = true) ∧
    (processV1 ([V1Ev.run (Outcome.ok 1)] ++ [V1Ev.run (Outcome.ok 2)])).resultPromiseGen
      = some 0 ∧
    (⟨0, (processV1 [V1Ev.run (Outcome.ok 1)]).nextTaskId, Outcome.ok 2⟩ : SeriesSettlement)
      ∈ ([V1Ev.settle 0, V1Ev.settle 1].foldl stepV1
          (processV1 ([V1Ev.run (Outcome.ok 1)] ++ [V1Ev.run (Outcome.ok 2)]))).seriesSettlements :=
  ⟨by decide, by decide,
   (c1_last_call_outcome_is_series_outcome [V1Ev.run (Outcome.ok 1)]
      [V1Ev.settle 0, V1Ev.settle 1] (Outcome.ok 2) (by decide) 0 (by decide)).2
     (by decide)⟩

end LastWins
